import Mathlib

/-!
Verification of the zurg-repair core against its design specification.

The development shallowly embeds the TypeScript sources:
  * `src/lib/repair.ts`   — `repairFile`, `repairFilesConcurrently`
  * `src/lib/zurg.ts`     — `getDetailedTorrent`, `processBatch`,
                            `chunkArray`, `getDetailedTorrentsConcurrently`
  * `src/lib/scheduler.ts`— `executeInstance` (run-exclusivity logic)
  * the run coordinator   — `runRepairForInstance`

Network I/O is abstracted into explicit oracles: every HTTP call's outcome
(`Except String …`, where `.error` models a thrown transport error carrying
its message) is supplied as data, and the control flow of the source is
reproduced exactly over those outcomes.  Timing (`setTimeout` waits) is
modelled by counting the waits the code performs; real durations carry no
logic.  JavaScript's `String.prototype.toLowerCase` is modelled character
by character (`strLower`), which agrees with it on the ASCII statuses the
program compares.
-/

/-- Model of `String.prototype.toLowerCase` (char-wise ASCII lowering);
kernel-reducible, unlike `String.toLower`. -/
def strLower (s : String) : String := ⟨s.data.map Char.toLower⟩

/-- `TorrentFile` from `src/types/torrent.ts`. -/
structure TorrentFile where
  name : String
  size : String
  status : String
  id : String
deriving DecidableEq, Repr

/-- `Torrent` from `src/types/torrent.ts`. -/
structure Torrent where
  name : String
  hash : String
  size : String
  date : String
deriving DecidableEq, Repr

/-- `DetailedTorrent` from `src/types/torrent.ts` (`extends Torrent`). -/
structure DetailedTorrent extends Torrent where
  files : List TorrentFile
deriving DecidableEq, Repr

/-- The `status` field of `RepairResult` in `src/lib/repair.ts`:
`"repaired" | "failed" | "error"`. -/
inductive RepairStatus where
  | repaired
  | failed
  | error
deriving DecidableEq, Repr

/-- `RepairResult` from `src/lib/repair.ts`. -/
structure RepairResult where
  torrentHash : String
  fileId : String
  fileName : String
  status : RepairStatus
  message : String
deriving DecidableEq, Repr

/-- Oracle for the network effects of one `repairFile` call: the outcome of
the delete action, of the restore action, and, for each verification attempt
number (1-based), the outcome of the `getDetailedTorrent` refresh.
`.error msg` models a thrown transport error carrying message `msg`. -/
structure RepairEnv where
  deleteResult : Except String Unit
  restoreResult : Except String Unit
  fetch : Nat → Except String DetailedTorrent

/-- Observable trace of one `repairFile` call: the returned `RepairResult`,
how many bundle-detail fetches the verification loop issued, how many
retry-delay waits happened between verification attempts (the `setTimeout`
at the bottom of the loop body), and how many post-restore waits happened
(the `setTimeout` between restore and the loop). -/
structure RepairTrace where
  result : RepairResult
  fetches : Nat
  sleeps : Nat
  restWaits : Nat
deriving DecidableEq, Repr

/-- Outcome of the verification `for` loop of `repairFile`:
`success = some k` iff the loop returned the repaired result on attempt `k`;
`fetches` and `sleeps` count detail fetches and between-attempt waits. -/
structure VerifyOutcome where
  success : Option Nat
  fetches : Nat
  sleeps : Nat
deriving DecidableEq, Repr

/-- Body of the verification loop of `repairFile`
(`for (let attempt = 1; attempt <= maxRetries; attempt++)`), compiled to
structural recursion on the number of remaining iterations; `attempt` is the
1-based loop counter and the caller maintains
`remaining = maxRetries + 1 - attempt`.  Mirrors the source exactly:

  * fetch error (inner `catch`): fall through to the guarded wait;
  * file absent (`!updatedFile`): `continue`, which in JavaScript skips the
    guarded wait at the bottom of the loop body;
  * file present and case-insensitively `"available"`: return immediately;
  * file present, other status: fall through to the guarded wait;
  * guarded wait: `if (attempt < maxRetries) await sleep(retryDelay)`. -/
def runVerifyGo (fetch : Nat → Except String DetailedTorrent) (fileId : String)
    (maxRetries : Nat) : Nat → Nat → VerifyOutcome
  | 0, _ => ⟨none, 0, 0⟩
  | remaining + 1, attempt =>
    match fetch attempt with
    | .ok updatedTorrent =>
      match updatedTorrent.files.find? (fun f => f.id == fileId) with
      | none =>
        let rest := runVerifyGo fetch fileId maxRetries remaining (attempt + 1)
        ⟨rest.success, rest.fetches + 1, rest.sleeps⟩
      | some updatedFile =>
        if strLower updatedFile.status == "available" then
          ⟨some attempt, 1, 0⟩
        else
          let rest := runVerifyGo fetch fileId maxRetries remaining (attempt + 1)
          ⟨rest.success, rest.fetches + 1,
            rest.sleeps + (if attempt < maxRetries then 1 else 0)⟩
    | .error _ =>
      let rest := runVerifyGo fetch fileId maxRetries remaining (attempt + 1)
      ⟨rest.success, rest.fetches + 1,
        rest.sleeps + (if attempt < maxRetries then 1 else 0)⟩

/-- The whole verification loop: attempts run from 1 to `maxRetries`. -/
def runVerify (fetch : Nat → Except String DetailedTorrent) (fileId : String)
    (maxRetries : Nat) : VerifyOutcome :=
  runVerifyGo fetch fileId maxRetries maxRetries 1

/-- `repairFile` from `src/lib/repair.ts`, as a trace over the oracle.
The outer `try` turns a failed delete or restore into `status = "error"`
with message `Repair process failed: <msg>`; a successful restore is
followed by one retry-delay wait and then the verification loop; loop
success on attempt `k` yields `status = "repaired"` mentioning `k`;
exhaustion yields `status = "failed"` mentioning `maxRetries`. -/
def repairFileTrace (env : RepairEnv) (torrent : Torrent) (file : TorrentFile)
    (maxRetries : Nat) : RepairTrace :=
  let torrentHash := torrent.hash
  let fileId := file.id
  let fileName := file.name
  match env.deleteResult with
  | .error e =>
    ⟨⟨torrentHash, fileId, fileName, .error, s!"Repair process failed: {e}"⟩, 0, 0, 0⟩
  | .ok _ =>
    match env.restoreResult with
    | .error e =>
      ⟨⟨torrentHash, fileId, fileName, .error, s!"Repair process failed: {e}"⟩, 0, 0, 0⟩
    | .ok _ =>
      let v := runVerify env.fetch fileId maxRetries
      match v.success with
      | some attempt =>
        ⟨⟨torrentHash, fileId, fileName, .repaired,
          s!"File repaired successfully after {attempt} verification attempt(s)"⟩,
          v.fetches, v.sleeps, 1⟩
      | none =>
        ⟨⟨torrentHash, fileId, fileName, .failed,
          s!"File repair failed - still not available after {maxRetries} verification attempts"⟩,
          v.fetches, v.sleeps, 1⟩

/-- Whether verification attempt `j` would find the file present with a
case-insensitively `"available"` status (the loop's success condition). -/
def attemptAvailable (fetch : Nat → Except String DetailedTorrent)
    (fileId : String) (j : Nat) : Bool :=
  match fetch j with
  | .ok dt =>
    match dt.files.find? (fun f => f.id == fileId) with
    | some f => strLower f.status == "available"
    | none => false
  | .error _ => false

/-- Whether verification attempt `j` would find the refreshed detail fetched
but the file absent from it (the `!updatedFile` branch). -/
def attemptAbsent (fetch : Nat → Except String DetailedTorrent)
    (fileId : String) (j : Nat) : Bool :=
  match fetch j with
  | .ok dt =>
    match dt.files.find? (fun f => f.id == fileId) with
    | some _ => false
    | none => true
  | .error _ => false

/-- The chunking loop shared by `repairFilesConcurrently` (`repair.ts`) and
`chunkArray` (`zurg.ts`): consecutive slices of size `k`.  Compiled to
structural recursion on a fuel initialised to the list length; for `k = 0`
the JavaScript loop never terminates, so the model is only meaningful for
`k ≥ 1` (the configuration schema enforces `concurrencyLimit ≥ 1`). -/
def chunkListGo (k : Nat) : Nat → List α → List (List α)
  | _, [] => []
  | 0, _ :: _ => []
  | fuel + 1, a :: as => (a :: as).take k :: chunkListGo k fuel ((a :: as).drop k)

/-- `chunkArray` from `src/lib/zurg.ts` (and the inline slicing loop of
`repairFilesConcurrently`). -/
def chunkList (l : List α) (k : Nat) : List (List α) :=
  chunkListGo k l.length l

/-- One repair job as submitted to `repairFilesConcurrently`, together with
its oracle: `.ok env` means the `repairFile` promise fulfills with the result
computed from `env`; `.error reason` models the promise rejecting with
`reason` (the `Promise.allSettled` rejected branch). -/
def settleRepair (settled : Torrent → TorrentFile → Except String RepairEnv)
    (maxRetries : Nat) (p : Torrent × TorrentFile) : RepairResult :=
  match settled p.1 p.2 with
  | .ok env => (repairFileTrace env p.1 p.2 maxRetries).result
  | .error reason =>
    ⟨p.1.hash, p.2.id, p.2.name, .error, s!"Repair promise rejected: {reason}"⟩

/-- The per-batch step of `repairFilesConcurrently`: `Promise.allSettled`
over the chunk, then the fulfilled/rejected fold that pushes one
`RepairResult` per settled promise, in order. -/
def processRepairChunk (settled : Torrent → TorrentFile → Except String RepairEnv)
    (maxRetries : Nat) (chunk : List (Torrent × TorrentFile)) : List RepairResult :=
  chunk.map (settleRepair settled maxRetries)

/-- `repairFilesConcurrently` from `src/lib/repair.ts`: slice the repairs
into batches of `concurrencyLimit`, process each batch, and concatenate the
per-batch results in order. -/
def repairFilesConcurrently (settled : Torrent → TorrentFile → Except String RepairEnv)
    (repairs : List (Torrent × TorrentFile)) (concurrencyLimit maxRetries : Nat) :
    List RepairResult :=
  ((chunkList repairs concurrencyLimit).map (processRepairChunk settled maxRetries)).flatten

/-- `getDetailedTorrent` from `src/lib/zurg.ts` over a per-torrent fetch
oracle: on success the torrent's fields are spread together with the parsed
file list. -/
def getDetailedTorrent (fetch : Torrent → Except String (List TorrentFile))
    (torrent : Torrent) : Except String DetailedTorrent :=
  (fetch torrent).map (fun files => { toTorrent := torrent, files := files })

/-- The fulfilled/rejected fold inside `processBatch` (`src/lib/zurg.ts`),
per torrent: a fulfilled detail whose files are all case-insensitively
`"available"` is skipped; any other fulfilled detail is kept; a rejected
fetch is recorded as the same torrent with an empty file list. -/
def batchOutcome (fetch : Torrent → Except String (List TorrentFile))
    (torrent : Torrent) : Option DetailedTorrent :=
  match getDetailedTorrent fetch torrent with
  | .ok detailedTorrent =>
    if detailedTorrent.files.all (fun f => strLower f.status == "available") then
      none
    else
      some detailedTorrent
  | .error _ =>
    some { name := torrent.name, hash := torrent.hash, size := torrent.size,
           date := torrent.date, files := [] }

/-- `processBatch` from `src/lib/zurg.ts`: `Promise.allSettled` over the
batch, then push the kept outcomes in order. -/
def processBatch (fetch : Torrent → Except String (List TorrentFile))
    (torrents : List Torrent) : List DetailedTorrent :=
  torrents.filterMap (batchOutcome fetch)

/-- `getDetailedTorrentsConcurrently` from `src/lib/zurg.ts`: chunk the
torrents by the concurrency limit, process each batch, and concatenate
(`processBatch` cannot throw, so the per-batch `catch` is unreachable). -/
def getDetailedTorrentsConcurrently (fetch : Torrent → Except String (List TorrentFile))
    (torrents : List Torrent) (concurrencyLimit : Nat) : List DetailedTorrent :=
  ((chunkList torrents concurrencyLimit).map (processBatch fetch)).flatten

/-- Whether a torrent's detail fetch fulfilled with every file
case-insensitively `"available"` (the `processBatch` skip condition). -/
def fetchedAllAvailable (fetch : Torrent → Except String (List TorrentFile))
    (torrent : Torrent) : Bool :=
  match fetch torrent with
  | .ok files => files.all (fun f => strLower f.status == "available")
  | .error _ => false

/-- `ZurgInstance` from `src/lib/config.ts` (name plus the per-instance
schema fields; `retryDelay` is carried but, being pure timing, plays no role
in the embedded logic). -/
structure ZurgInstance where
  name : String
  baseUrl : String
  cronSchedule : String
  concurrencyLimit : Nat
  retryAttempts : Nat
  retryDelay : Nat
  enabled : Bool
deriving DecidableEq, Repr

/-- Oracle for one whole instance run: the outcome of the torrent-list
fetch, a per-torrent outcome for the analysis-phase detail fetches, and a
per-target oracle for the repair phase. -/
structure RunEnv where
  torrentList : Except String (List Torrent)
  details : Torrent → Except String (List TorrentFile)
  repairSettled : Torrent → TorrentFile → Except String RepairEnv

/-- Aggregate counts of `RepairResult` by status (the `reduce` in
`runRepairForInstance` and the spec's `RunSummary`). -/
structure RunSummary where
  repaired : Nat
  failed : Nat
  error : Nat
deriving DecidableEq, Repr

/-- The summary `reduce` of `runRepairForInstance`. -/
def summarize (results : List RepairResult) : RunSummary :=
  results.foldl
    (fun acc r =>
      match r.status with
      | .repaired => { acc with repaired := acc.repaired + 1 }
      | .failed => { acc with failed := acc.failed + 1 }
      | .error => { acc with error := acc.error + 1 })
    ⟨0, 0, 0⟩

/-- Step 3 of `runRepairForInstance`: collect, per detailed torrent, the
files whose status is not case-insensitively `"available"`, paired with
their torrent. -/
def brokenTargets (detailedTorrents : List DetailedTorrent) :
    List (Torrent × TorrentFile) :=
  detailedTorrents.flatMap
    (fun t =>
      (t.files.filter (fun f => !(strLower f.status == "available"))).map
        (fun f => (t.toTorrent, f)))

/-- `runRepairForInstance` from `src/lib/repair-runner.ts`.  It returns
`Promise<void>`: the success value is `Unit`.  A failed torrent-list fetch
propagates (the outer `catch` logs and re-throws); an empty torrent list or
an empty broken-file list returns successfully; otherwise the repair results
are aggregated and the run throws exactly when `failed + error > 0`. -/
def runRepairForInstance (env : RunEnv) (inst : ZurgInstance) : Except String Unit :=
  match env.torrentList with
  | .error e => .error e
  | .ok allTorrents =>
    if allTorrents.isEmpty then .ok ()
    else
      let detailedTorrents :=
        getDetailedTorrentsConcurrently env.details allTorrents inst.concurrencyLimit
      let brokenFiles := brokenTargets detailedTorrents
      if brokenFiles.isEmpty then .ok ()
      else
        let repairResults :=
          repairFilesConcurrently env.repairSettled brokenFiles
            inst.concurrencyLimit inst.retryAttempts
        let s := summarize repairResults
        if s.failed + s.error > 0 then
          let nm := inst.name
          let nf := s.failed
          let ne := s.error
          .error s!"Some repairs failed for instance \x27{nm}\x27. {nf} failed, {ne} errors."
        else .ok ()

/-- The repair results computed during `runRepairForInstance` (empty when
the run exits early with no torrents or no broken files, or when the
torrent-list fetch fails); the observation the run's final FAILURE/SUCCESS
decision is about. -/
def runRepairResults (env : RunEnv) (inst : ZurgInstance) : List RepairResult :=
  match env.torrentList with
  | .error _ => []
  | .ok allTorrents =>
    if allTorrents.isEmpty then []
    else
      let brokenFiles :=
        brokenTargets
          (getDetailedTorrentsConcurrently env.details allTorrents inst.concurrencyLimit)
      if brokenFiles.isEmpty then []
      else
        repairFilesConcurrently env.repairSettled brokenFiles
          inst.concurrencyLimit inst.retryAttempts

/-- Modelled from the spec (section 6, `runInstance(instance) -> RunSummary,
throws on aggregate failure`): the same run pipeline as the source, but with
the built `RunSummary` as the success value (missing from `src/`: the code's
`runRepairForInstance` has return type `Promise<void>`).  Used to compare
the code's return behaviour against the spec's. -/
def runInstanceSpec (env : RunEnv) (inst : ZurgInstance) : Except String RunSummary :=
  match env.torrentList with
  | .error e => .error e
  | .ok allTorrents =>
    if allTorrents.isEmpty then .ok ⟨0, 0, 0⟩
    else
      let brokenFiles :=
        brokenTargets
          (getDetailedTorrentsConcurrently env.details allTorrents inst.concurrencyLimit)
      if brokenFiles.isEmpty then .ok ⟨0, 0, 0⟩
      else
        let s :=
          summarize
            (repairFilesConcurrently env.repairSettled brokenFiles
              inst.concurrencyLimit inst.retryAttempts)
        if s.failed + s.error > 0 then
          let nm := inst.name
          let nf := s.failed
          let ne := s.error
          .error s!"Some repairs failed for instance \x27{nm}\x27. {nf} failed, {ne} errors."
        else .ok s

/-- Observable outcome of one `executeInstance` call of the scheduler
(`src/lib/scheduler.ts`): the running-job set after the call, how many times
`runRepairForInstance` was invoked, and the running-job set in force at each
invocation. -/
structure ExecOutcome where
  finalJobs : List String
  invocations : Nat
  invokeStates : List (List String)
deriving DecidableEq, Repr

/-- `executeInstance` from `src/lib/scheduler.ts` over the running-job set
(the `Set` is modelled as a duplicate-free-by-use list): if the instance is
already running, skip with nothing invoked and the set unchanged; otherwise
add it, invoke the run once (its success or failure is caught and only
logged), and remove it in the `finally` block. -/
def executeInstance (runningJobs : List String) (jobKey : String)
    (runOutcome : Except String Unit) : ExecOutcome :=
  if runningJobs.contains jobKey then
    ⟨runningJobs, 0, []⟩
  else
    let withJob := jobKey :: runningJobs
    match runOutcome with
    | .ok _ => ⟨withJob.erase jobKey, 1, [withJob]⟩
    | .error _ => ⟨withJob.erase jobKey, 1, [withJob]⟩

/-- Concrete fixture: a torrent. -/
def tA : Torrent := ⟨"Alpha", "hashA", "1 GB", "2024-01-01"⟩

/-- Concrete fixture: a second torrent. -/
def tB : Torrent := ⟨"Beta", "hashB", "2 GB", "2024-02-02"⟩

/-- Concrete fixture: a third torrent. -/
def tC : Torrent := ⟨"Gamma", "hashC", "3 GB", "2024-03-03"⟩

/-- Concrete fixture: a broken file. -/
def fBroken : TorrentFile := ⟨"alpha.mkv", "700 MB", "Broken", "11"⟩

/-- Concrete fixture: the same file, reported `Available`. -/
def fAvail : TorrentFile := ⟨"alpha.mkv", "700 MB", "Available", "11"⟩

/-- Concrete fixture: a repair oracle whose delete action fails. -/
def envDeleteFail : RepairEnv :=
  ⟨.error "delete boom", .ok (), fun _ => .error "unused"⟩

/-- Concrete fixture: a repair oracle whose restore action fails. -/
def envRestoreFail : RepairEnv :=
  ⟨.ok (), .error "restore boom", fun _ => .error "unused"⟩

/-- Concrete fixture: actions succeed, verification finds the file still
broken on attempt 1 and available on attempt 2. -/
def envSecondTry : RepairEnv :=
  ⟨.ok (), .ok (), fun j =>
    if j == 1 then .ok ⟨tA, [fBroken]⟩ else .ok ⟨tA, [fAvail]⟩⟩

/-- Concrete fixture: actions succeed, every detail refresh fails. -/
def envDown : RepairEnv :=
  ⟨.ok (), .ok (), fun _ => .error "connection refused"⟩

/-- Concrete fixture: actions succeed, every detail refresh fulfills but the
file is absent from it. -/
def envAbsent : RepairEnv :=
  ⟨.ok (), .ok (), fun _ => .ok ⟨tA, []⟩⟩

/-- Concrete fixture: actions succeed and the file is available on the very
first verification attempt. -/
def envImmediate : RepairEnv :=
  ⟨.ok (), .ok (), fun _ => .ok ⟨tA, [fAvail]⟩⟩

/-- Concrete fixture: an instance with concurrency limit 1 and one retry. -/
def instOne : ZurgInstance :=
  ⟨"main", "http://localhost:9999", "0 0 * * *", 1, 1, 2000, true⟩

/-- Concrete fixture: a run oracle with an empty torrent list. -/
def envNoTorrents : RunEnv :=
  ⟨.ok [], fun _ => .ok [], fun _ _ => .error "unused"⟩

/-- Concrete fixture: a run oracle with one torrent holding one broken file
that is repaired on the first verification attempt. -/
def envOneRepaired : RunEnv :=
  ⟨.ok [tA], fun _ => .ok [fBroken], fun _ _ => .ok envImmediate⟩

/-- Concrete fixture: a per-torrent detail oracle where `tA` fulfills with
all files available, `tB` rejects, and `tC` fulfills with a broken file. -/
def detailMix : Torrent → Except String (List TorrentFile) := fun t =>
  if t.hash == "hashA" then .ok [fAvail]
  else if t.hash == "hashB" then .error "detail down"
  else .ok [fBroken]

theorem repairFileTrace_ids (env : RepairEnv) (t : Torrent) (f : TorrentFile)
    (m : Nat) :
    (repairFileTrace env t f m).result.torrentHash = t.hash ∧
    (repairFileTrace env t f m).result.fileId = f.id ∧
    (repairFileTrace env t f m).result.fileName = f.name := by
  simp only [repairFileTrace]
  split
  · exact ⟨rfl, rfl, rfl⟩
  · split
    · exact ⟨rfl, rfl, rfl⟩
    · split <;> exact ⟨rfl, rfl, rfl⟩

theorem settleRepair_ids (settled : Torrent → TorrentFile → Except String RepairEnv)
    (m : Nat) (p : Torrent × TorrentFile) :
    (settleRepair settled m p).torrentHash = p.1.hash ∧
    (settleRepair settled m p).fileId = p.2.id ∧
    (settleRepair settled m p).fileName = p.2.name := by
  unfold settleRepair
  split
  · exact repairFileTrace_ids _ _ _ _
  · exact ⟨rfl, rfl, rfl⟩

theorem chunkListGo_flatten {α : Type} (k : Nat) (hk : 0 < k) :
    ∀ (fuel : Nat) (l : List α), l.length ≤ fuel →
      (chunkListGo k fuel l).flatten = l := by
  intro fuel
  induction fuel with
  | zero =>
    intro l hl
    cases l with
    | nil => rfl
    | cons a as => simp only [List.length_cons] at hl; omega
  | succ fuel ih =>
    intro l hl
    cases l with
    | nil => rfl
    | cons a as =>
      simp only [chunkListGo, List.flatten_cons]
      rw [ih ((a :: as).drop k)
        (by simp only [List.length_drop, List.length_cons] at *; omega)]
      exact List.take_append_drop k (a :: as)

theorem chunkList_flatten {α : Type} (l : List α) (k : Nat) (hk : 0 < k) :
    (chunkList l k).flatten = l :=
  chunkListGo_flatten k hk l.length l (Nat.le_refl _)

theorem repairFilesConcurrently_eq_map
    (settled : Torrent → TorrentFile → Except String RepairEnv)
    (repairs : List (Torrent × TorrentFile)) (limit m : Nat) (h : 0 < limit) :
    repairFilesConcurrently settled repairs limit m =
      repairs.map (settleRepair settled m) := by
  unfold repairFilesConcurrently
  show ((chunkList repairs limit).map (List.map (settleRepair settled m))).flatten = _
  rw [← List.map_flatten, chunkList_flatten repairs limit h]

/-- C1: for every repair-target list, concurrency limit (at least 1, as the
configuration schema guarantees) and retry parameters,
`repairFilesConcurrently` returns exactly one `RepairResult` per input
target, and the result at index `i` carries the bundle hash and file id of
the target at index `i`. -/
theorem repairMany_one_result_per_target_in_order
    (settled : Torrent → TorrentFile → Except String RepairEnv)
    (repairs : List (Torrent × TorrentFile)) (concurrencyLimit maxRetries : Nat)
    (hpos : 0 < concurrencyLimit) :
    (repairFilesConcurrently settled repairs concurrencyLimit maxRetries).length =
      repairs.length ∧
    ∀ i : Nat,
      ((repairFilesConcurrently settled repairs concurrencyLimit maxRetries)[i]?).map
          (fun r => (r.torrentHash, r.fileId)) =
        (repairs[i]?).map (fun p => (p.1.hash, p.2.id)) := by
  rw [repairFilesConcurrently_eq_map settled repairs concurrencyLimit maxRetries hpos]
  refine ⟨List.length_map _ _, fun i => ?_⟩
  rw [List.getElem?_map]
  cases hp : repairs[i]? with
  | none => rfl
  | some p =>
    obtain ⟨h1, h2, _⟩ := settleRepair_ids settled maxRetries p
    simp [h1, h2]

/-- Witness for C1 at a concrete two-target list with concurrency limit 1. -/
theorem repairMany_one_result_per_target_in_order_witness :
    (repairFilesConcurrently (fun _ _ => Except.error "rejected")
        [(⟨"A", "aaa", "1", "d1"⟩, ⟨"f1", "1", "Broken", "10"⟩),
         (⟨"B", "bbb", "2", "d2"⟩, ⟨"f2", "2", "Deleted", "20"⟩)] 1 3).length = 2 ∧
    ∀ i : Nat,
      ((repairFilesConcurrently (fun _ _ => Except.error "rejected")
          [(⟨"A", "aaa", "1", "d1"⟩, ⟨"f1", "1", "Broken", "10"⟩),
           (⟨"B", "bbb", "2", "d2"⟩, ⟨"f2", "2", "Deleted", "20"⟩)] 1 3)[i]?).map
          (fun r => (r.torrentHash, r.fileId)) =
        (([(⟨"A", "aaa", "1", "d1"⟩, ⟨"f1", "1", "Broken", "10"⟩),
           (⟨"B", "bbb", "2", "d2"⟩, ⟨"f2", "2", "Deleted", "20"⟩)] :
            List (Torrent × TorrentFile))[i]?).map (fun p => (p.1.hash, p.2.id)) :=
  repairMany_one_result_per_target_in_order (fun _ _ => Except.error "rejected")
    [(⟨"A", "aaa", "1", "d1"⟩, ⟨"f1", "1", "Broken", "10"⟩),
     (⟨"B", "bbb", "2", "d2"⟩, ⟨"f2", "2", "Deleted", "20"⟩)] 1 3 (by decide)

/-- C10: in every outcome branch, the `RepairResult` returned by
`repairFile` carries exactly the input target's identifiers: its
`torrentHash` is the torrent's hash, its `fileId` the file's id and its
`fileName` the file's name. -/
theorem repairFile_preserves_identifiers (env : RepairEnv) (torrent : Torrent)
    (file : TorrentFile) (maxRetries : Nat) :
    (repairFileTrace env torrent file maxRetries).result.torrentHash = torrent.hash ∧
    (repairFileTrace env torrent file maxRetries).result.fileId = file.id ∧
    (repairFileTrace env torrent file maxRetries).result.fileName = file.name :=
  repairFileTrace_ids env torrent file maxRetries

theorem runVerifyGo_success (fetch : Nat → Except String DetailedTorrent)
    (fileId : String) (maxRetries : Nat) :
    ∀ (remaining attempt k : Nat),
      attempt + remaining = maxRetries + 1 →
      attempt ≤ k → k ≤ maxRetries →
      (∀ j, attempt ≤ j → j < k → attemptAvailable fetch fileId j = false) →
      attemptAvailable fetch fileId k = true →
      (runVerifyGo fetch fileId maxRetries remaining attempt).success = some k ∧
      (runVerifyGo fetch fileId maxRetries remaining attempt).fetches = k + 1 - attempt ∧
      (runVerifyGo fetch fileId maxRetries remaining attempt).sleeps =
        ((List.range' attempt (k - attempt)).filter
          (fun j => !(attemptAbsent fetch fileId j))).length := by
  intro remaining
  induction remaining with
  | zero =>
    intro attempt k h1 h2 h3 _ _
    omega
  | succ remaining ih =>
    intro attempt k h1 h2 h3 hprev hk
    rcases Nat.eq_or_lt_of_le h2 with rfl | hak
    · cases hf : fetch attempt with
      | error e => simp [attemptAvailable, hf] at hk
      | ok dt =>
        cases hfind : dt.files.find? (fun fl => fl.id == fileId) with
        | none => simp [attemptAvailable, hf, hfind] at hk
        | some uf =>
          simp only [attemptAvailable, hf, hfind] at hk
          have hgoal : runVerifyGo fetch fileId maxRetries (remaining + 1) attempt =
              ⟨some attempt, 1, 0⟩ := by
            simp [runVerifyGo, hf, hfind, hk]
          rw [hgoal]
          refine ⟨rfl, ?_, by simp [Nat.sub_self]⟩
          show (1 : Nat) = attempt + 1 - attempt
          omega
    · have havail : attemptAvailable fetch fileId attempt = false :=
        hprev attempt (Nat.le_refl _) hak
      have harg : attempt + 1 + remaining = maxRetries + 1 := by omega
      have hprev' : ∀ j, attempt + 1 ≤ j → j < k →
          attemptAvailable fetch fileId j = false :=
        fun j hj1 hj2 => hprev j (by omega) hj2
      obtain ⟨ihs, ihf, ihsl⟩ := ih (attempt + 1) k harg hak h3 hprev' hk
      have hlt : attempt < maxRetries := by omega
      have hrange : k - attempt = (k - (attempt + 1)) + 1 := by omega
      cases hf : fetch attempt with
      | error e =>
        have habs : attemptAbsent fetch fileId attempt = false := by
          simp [attemptAbsent, hf]
        have hgoal : runVerifyGo fetch fileId maxRetries (remaining + 1) attempt =
            ⟨(runVerifyGo fetch fileId maxRetries remaining (attempt + 1)).success,
             (runVerifyGo fetch fileId maxRetries remaining (attempt + 1)).fetches + 1,
             (runVerifyGo fetch fileId maxRetries remaining (attempt + 1)).sleeps + 1⟩ := by
          simp [runVerifyGo, hf, hlt]
        rw [hgoal]
        refine ⟨ihs, ?_, ?_⟩
        · show (runVerifyGo fetch fileId maxRetries remaining (attempt + 1)).fetches + 1 =
            k + 1 - attempt
          rw [ihf]; omega
        · rw [ihsl, hrange, List.range'_succ]
          simp [List.filter_cons, habs]
      | ok dt =>
        cases hfind : dt.files.find? (fun fl => fl.id == fileId) with
        | none =>
          have habs : attemptAbsent fetch fileId attempt = true := by
            simp [attemptAbsent, hf, hfind]
          have hgoal : runVerifyGo fetch fileId maxRetries (remaining + 1) attempt =
              ⟨(runVerifyGo fetch fileId maxRetries remaining (attempt + 1)).success,
               (runVerifyGo fetch fileId maxRetries remaining (attempt + 1)).fetches + 1,
               (runVerifyGo fetch fileId maxRetries remaining (attempt + 1)).sleeps⟩ := by
            simp [runVerifyGo, hf, hfind]
          rw [hgoal]
          refine ⟨ihs, ?_, ?_⟩
          · show (runVerifyGo fetch fileId maxRetries remaining (attempt + 1)).fetches + 1 =
              k + 1 - attempt
            rw [ihf]; omega
          · rw [ihsl, hrange, List.range'_succ]
            simp [List.filter_cons, habs]
        | some uf =>
          have hcond : (strLower uf.status == "available") = false := by
            simpa only [attemptAvailable, hf, hfind] using havail
          have habs : attemptAbsent fetch fileId attempt = false := by
            simp [attemptAbsent, hf, hfind]
          have hgoal : runVerifyGo fetch fileId maxRetries (remaining + 1) attempt =
              ⟨(runVerifyGo fetch fileId maxRetries remaining (attempt + 1)).success,
               (runVerifyGo fetch fileId maxRetries remaining (attempt + 1)).fetches + 1,
               (runVerifyGo fetch fileId maxRetries remaining (attempt + 1)).sleeps + 1⟩ := by
            simp [runVerifyGo, hf, hfind, hcond, hlt]
          rw [hgoal]
          refine ⟨ihs, ?_, ?_⟩
          · show (runVerifyGo fetch fileId maxRetries remaining (attempt + 1)).fetches + 1 =
              k + 1 - attempt
            rw [ihf]; omega
          · rw [ihsl, hrange, List.range'_succ]
            simp [List.filter_cons, habs]

theorem runVerifyGo_exhaust (fetch : Nat → Except String DetailedTorrent)
    (fileId : String) (maxRetries : Nat) :
    ∀ (remaining attempt : Nat),
      attempt + remaining = maxRetries + 1 →
      (∀ j, attempt ≤ j → j ≤ maxRetries → attemptAvailable fetch fileId j = false) →
      (runVerifyGo fetch fileId maxRetries remaining attempt).success = none ∧
      (runVerifyGo fetch fileId maxRetries remaining attempt).fetches = remaining ∧
      (runVerifyGo fetch fileId maxRetries remaining attempt).sleeps =
        ((List.range' attempt remaining).filter
          (fun j => !(attemptAbsent fetch fileId j) && decide (j < maxRetries))).length := by
  intro remaining
  induction remaining with
  | zero =>
    intro attempt h1 hfail
    exact ⟨rfl, rfl, rfl⟩
  | succ remaining ih =>
    intro attempt h1 hfail
    have havail : attemptAvailable fetch fileId attempt = false :=
      hfail attempt (Nat.le_refl _) (by omega)
    have harg : attempt + 1 + remaining = maxRetries + 1 := by omega
    have hfail' : ∀ j, attempt + 1 ≤ j → j ≤ maxRetries →
        attemptAvailable fetch fileId j = false :=
      fun j hj1 hj2 => hfail j (by omega) hj2
    obtain ⟨ihs, ihf, ihsl⟩ := ih (attempt + 1) harg hfail'
    cases hf : fetch attempt with
    | error e =>
      have habs : attemptAbsent fetch fileId attempt = false := by
        simp [attemptAbsent, hf]
      have hgoal : runVerifyGo fetch fileId maxRetries (remaining + 1) attempt =
          ⟨(runVerifyGo fetch fileId maxRetries remaining (attempt + 1)).success,
           (runVerifyGo fetch fileId maxRetries remaining (attempt + 1)).fetches + 1,
           (runVerifyGo fetch fileId maxRetries remaining (attempt + 1)).sleeps +
             (if attempt < maxRetries then 1 else 0)⟩ := by
        simp [runVerifyGo, hf]
      rw [hgoal]
      refine ⟨ihs, ?_, ?_⟩
      · show (runVerifyGo fetch fileId maxRetries remaining (attempt + 1)).fetches + 1 =
          remaining + 1
        rw [ihf]
      · rw [ihsl, List.range'_succ]
        by_cases hlt : attempt < maxRetries
        · simp [List.filter_cons, habs, hlt]
        · simp [List.filter_cons, habs, hlt]
    | ok dt =>
      cases hfind : dt.files.find? (fun fl => fl.id == fileId) with
      | none =>
        have habs : attemptAbsent fetch fileId attempt = true := by
          simp [attemptAbsent, hf, hfind]
        have hgoal : runVerifyGo fetch fileId maxRetries (remaining + 1) attempt =
            ⟨(runVerifyGo fetch fileId maxRetries remaining (attempt + 1)).success,
             (runVerifyGo fetch fileId maxRetries remaining (attempt + 1)).fetches + 1,
             (runVerifyGo fetch fileId maxRetries remaining (attempt + 1)).sleeps⟩ := by
          simp [runVerifyGo, hf, hfind]
        rw [hgoal]
        refine ⟨ihs, ?_, ?_⟩
        · show (runVerifyGo fetch fileId maxRetries remaining (attempt + 1)).fetches + 1 =
            remaining + 1
          rw [ihf]
        · rw [ihsl, List.range'_succ]
          simp [List.filter_cons, habs]
      | some uf =>
        have hcond : (strLower uf.status == "available") = false := by
          simpa only [attemptAvailable, hf, hfind] using havail
        have habs : attemptAbsent fetch fileId attempt = false := by
          simp [attemptAbsent, hf, hfind]
        have hgoal : runVerifyGo fetch fileId maxRetries (remaining + 1) attempt =
            ⟨(runVerifyGo fetch fileId maxRetries remaining (attempt + 1)).success,
             (runVerifyGo fetch fileId maxRetries remaining (attempt + 1)).fetches + 1,
             (runVerifyGo fetch fileId maxRetries remaining (attempt + 1)).sleeps +
               (if attempt < maxRetries then 1 else 0)⟩ := by
          simp [runVerifyGo, hf, hfind, hcond]
        rw [hgoal]
        refine ⟨ihs, ?_, ?_⟩
        · show (runVerifyGo fetch fileId maxRetries remaining (attempt + 1)).fetches + 1 =
            remaining + 1
          rw [ihf]
        · rw [ihsl, List.range'_succ]
          by_cases hlt : attempt < maxRetries
          · simp [List.filter_cons, habs, hlt]
          · simp [List.filter_cons, habs, hlt]

/-- C2: if the delete action fails, or delete succeeds and the restore
action fails, `repairFile` returns `status = error` carrying the underlying
failure message, and performs zero verification attempts: its full trace is
the error result with no detail fetch, no between-attempt wait and no
post-restore wait. -/
theorem repairFile_error_aborts_verification (env : RepairEnv) (torrent : Torrent)
    (file : TorrentFile) (maxRetries : Nat) :
    (∀ e, env.deleteResult = .error e →
      repairFileTrace env torrent file maxRetries =
        ⟨⟨torrent.hash, file.id, file.name, .error,
          s!"Repair process failed: {e}"⟩, 0, 0, 0⟩) ∧
    (∀ e, env.deleteResult = .ok () → env.restoreResult = .error e →
      repairFileTrace env torrent file maxRetries =
        ⟨⟨torrent.hash, file.id, file.name, .error,
          s!"Repair process failed: {e}"⟩, 0, 0, 0⟩) := by
  constructor
  · intro e he
    simp [repairFileTrace, he]
  · intro e hd he
    simp [repairFileTrace, hd, he]

/-- Witness for C2: concrete failing delete and failing restore oracles. -/
theorem repairFile_error_aborts_verification_witness :
    repairFileTrace envDeleteFail tA fBroken 3 =
      ⟨⟨tA.hash, fBroken.id, fBroken.name, .error,
        "Repair process failed: delete boom"⟩, 0, 0, 0⟩ ∧
    repairFileTrace envRestoreFail tA fBroken 3 =
      ⟨⟨tA.hash, fBroken.id, fBroken.name, .error,
        "Repair process failed: restore boom"⟩, 0, 0, 0⟩ :=
  ⟨(repairFile_error_aborts_verification envDeleteFail tA fBroken 3).1
      "delete boom" rfl,
   (repairFile_error_aborts_verification envRestoreFail tA fBroken 3).2
      "restore boom" rfl rfl⟩

/-- C3: if delete and restore succeed, every verification attempt before `k`
fails to find the file available, and the `k`-th attempt (1 ≤ k ≤
maxRetries) finds it present with a case-insensitively `"available"` status,
then `repairFile` returns `status = repaired` with a message reporting
attempt count `k`, and exactly `k` bundle-detail fetches occur. -/
theorem repairFile_repaired_on_attempt_k (env : RepairEnv) (torrent : Torrent)
    (file : TorrentFile) (maxRetries k : Nat)
    (hdel : env.deleteResult = .ok ()) (hres : env.restoreResult = .ok ())
    (hk1 : 1 ≤ k) (hk2 : k ≤ maxRetries)
    (hprev : ∀ j, 1 ≤ j → j < k → attemptAvailable env.fetch file.id j = false)
    (hk : attemptAvailable env.fetch file.id k = true) :
    (repairFileTrace env torrent file maxRetries).result.status = .repaired ∧
    (repairFileTrace env torrent file maxRetries).result.message =
      s!"File repaired successfully after {k} verification attempt(s)" ∧
    (repairFileTrace env torrent file maxRetries).fetches = k := by
  obtain ⟨hs, hf, _⟩ := runVerifyGo_success env.fetch file.id maxRetries maxRetries 1 k
    (by omega) hk1 hk2 hprev hk
  have htr : repairFileTrace env torrent file maxRetries =
      ⟨⟨torrent.hash, file.id, file.name, .repaired,
        s!"File repaired successfully after {k} verification attempt(s)"⟩,
       (runVerify env.fetch file.id maxRetries).fetches,
       (runVerify env.fetch file.id maxRetries).sleeps, 1⟩ := by
    simp [repairFileTrace, hdel, hres, runVerify, hs]
  rw [htr]
  refine ⟨rfl, rfl, ?_⟩
  show (runVerify env.fetch file.id maxRetries).fetches = k
  rw [runVerify, hf]
  omega

/-- Witness for C3: success on attempt 2 of 3. -/
theorem repairFile_repaired_on_attempt_k_witness :
    (repairFileTrace envSecondTry tA fBroken 3).result.status = .repaired ∧
    (repairFileTrace envSecondTry tA fBroken 3).result.message =
      "File repaired successfully after 2 verification attempt(s)" ∧
    (repairFileTrace envSecondTry tA fBroken 3).fetches = 2 :=
  repairFile_repaired_on_attempt_k envSecondTry tA fBroken 3 2 rfl rfl
    (by decide) (by decide)
    (fun j h1 h2 => by
      have hj : j = 1 := by omega
      subst hj
      decide)
    (by decide)

/-- C5: if delete and restore succeed but no verification attempt within the
budget finds the file case-insensitively `"available"` (absent, still
broken, or detail fetch failed, on every attempt), `repairFile` returns
`status = failed` with a message stating the exhausted attempt count, and
at most `maxRetries` bundle-detail fetches occur. -/
theorem repairFile_failed_when_never_available (env : RepairEnv) (torrent : Torrent)
    (file : TorrentFile) (maxRetries : Nat)
    (hdel : env.deleteResult = .ok ()) (hres : env.restoreResult = .ok ())
    (hnever : ∀ j, 1 ≤ j → j ≤ maxRetries →
      attemptAvailable env.fetch file.id j = false) :
    (repairFileTrace env torrent file maxRetries).result.status = .failed ∧
    (repairFileTrace env torrent file maxRetries).result.message =
      s!"File repair failed - still not available after {maxRetries} verification attempts" ∧
    (repairFileTrace env torrent file maxRetries).fetches ≤ maxRetries := by
  obtain ⟨hs, hf, _⟩ := runVerifyGo_exhaust env.fetch file.id maxRetries maxRetries 1
    (by omega) hnever
  have htr : repairFileTrace env torrent file maxRetries =
      ⟨⟨torrent.hash, file.id, file.name, .failed,
        s!"File repair failed - still not available after {maxRetries} verification attempts"⟩,
       (runVerify env.fetch file.id maxRetries).fetches,
       (runVerify env.fetch file.id maxRetries).sleeps, 1⟩ := by
    simp [repairFileTrace, hdel, hres, runVerify, hs]
  rw [htr]
  refine ⟨rfl, rfl, ?_⟩
  show (runVerify env.fetch file.id maxRetries).fetches ≤ maxRetries
  rw [runVerify, hf]

/-- Witness for C5: every detail refresh fails, budget 3. -/
theorem repairFile_failed_when_never_available_witness :
    (repairFileTrace envDown tA fBroken 3).result.status = .failed ∧
    (repairFileTrace envDown tA fBroken 3).result.message =
      "File repair failed - still not available after 3 verification attempts" ∧
    (repairFileTrace envDown tA fBroken 3).fetches ≤ 3 :=
  repairFile_failed_when_never_available envDown tA fBroken 3 rfl rfl
    (fun _ _ _ => rfl)

/-- Counterexample to C6 as stated: with `maxRetries = 2` and both
verification attempts finding the file absent from the refreshed detail,
two consecutive attempts occur (two fetches) yet the number of waits
between attempts is 0, not the 1 the claim requires — the `continue` in the
absent branch skips the guarded wait at the bottom of the loop body. -/
theorem repairFile_wait_between_attempts_counterexample :
    (repairFileTrace envAbsent tA fBroken 2).fetches = 2 ∧
    (repairFileTrace envAbsent tA fBroken 2).sleeps ≠ 1 := by
  exact ⟨by decide, by decide⟩

/-- C6 (amended): in `repairFile`'s verification loop, when the loop
exhausts its budget, a wait of one retry-delay interval occurs after
exactly those attempts that are not the last scheduled attempt and did not
find the file absent from the refreshed detail; an attempt that found the
file absent proceeds to the next attempt immediately, with no wait. -/
theorem repairFile_wait_skipped_on_absent (env : RepairEnv) (torrent : Torrent)
    (file : TorrentFile) (maxRetries : Nat)
    (hdel : env.deleteResult = .ok ()) (hres : env.restoreResult = .ok ())
    (hnever : ∀ j, 1 ≤ j → j ≤ maxRetries →
      attemptAvailable env.fetch file.id j = false) :
    (repairFileTrace env torrent file maxRetries).sleeps =
      ((List.range' 1 maxRetries).filter
        (fun j => !(attemptAbsent env.fetch file.id j) &&
          decide (j < maxRetries))).length := by
  obtain ⟨hs, _, hsl⟩ := runVerifyGo_exhaust env.fetch file.id maxRetries maxRetries 1
    (by omega) hnever
  have htr : repairFileTrace env torrent file maxRetries =
      ⟨⟨torrent.hash, file.id, file.name, .failed,
        s!"File repair failed - still not available after {maxRetries} verification attempts"⟩,
       (runVerify env.fetch file.id maxRetries).fetches,
       (runVerify env.fetch file.id maxRetries).sleeps, 1⟩ := by
    simp [repairFileTrace, hdel, hres, runVerify, hs]
  rw [htr]
  show (runVerify env.fetch file.id maxRetries).sleeps = _
  rw [runVerify, hsl]

/-- Witness for the amended C6: all three attempts find the file absent, so
no waits at all occur inside the loop. -/
theorem repairFile_wait_skipped_on_absent_witness :
    (repairFileTrace envAbsent tA fBroken 3).sleeps =
      ((List.range' 1 3).filter
        (fun j => !(attemptAbsent envAbsent.fetch fBroken.id j) &&
          decide (j < 3))).length :=
  repairFile_wait_skipped_on_absent envAbsent tA fBroken 3 rfl rfl
    (fun _ _ _ => rfl)

theorem flatten_map_filterMap {α β : Type} (g : α → Option β) :
    ∀ L : List (List α),
      (L.map (fun c => c.filterMap g)).flatten = L.flatten.filterMap g := by
  intro L
  induction L with
  | nil => rfl
  | cons c L ih =>
    simp only [List.map_cons, List.flatten_cons, List.filterMap_append, ih]

theorem length_filterMap_eq_countP {α β : Type} (g : α → Option β) :
    ∀ l : List α, (l.filterMap g).length = l.countP (fun a => (g a).isSome) := by
  intro l
  induction l with
  | nil => rfl
  | cons a as ih =>
    simp only [List.filterMap_cons, List.countP_cons]
    cases h : g a <;> simp [h, ih]

theorem batchOutcome_error (fetch : Torrent → Except String (List TorrentFile))
    (t : Torrent) (e : String) (hf : fetch t = .error e) :
    batchOutcome fetch t = some { toTorrent := t, files := [] } := by
  unfold batchOutcome getDetailedTorrent
  rw [hf]
  rfl

theorem batchOutcome_ok (fetch : Torrent → Except String (List TorrentFile))
    (t : Torrent) (files : List TorrentFile) (hf : fetch t = .ok files) :
    batchOutcome fetch t =
      (if files.all (fun fl => strLower fl.status == "available") then none
       else some { toTorrent := t, files := files }) := by
  unfold batchOutcome getDetailedTorrent
  rw [hf]
  rfl

theorem getDetailed_eq_filterMap (fetch : Torrent → Except String (List TorrentFile))
    (torrents : List Torrent) (limit : Nat) (hpos : 0 < limit) :
    getDetailedTorrentsConcurrently fetch torrents limit =
      torrents.filterMap (batchOutcome fetch) := by
  unfold getDetailedTorrentsConcurrently processBatch
  rw [flatten_map_filterMap (batchOutcome fetch) (chunkList torrents limit),
    chunkList_flatten torrents limit hpos]

/-- C7: a bundle whose detail fetch fails is not omitted:
`getDetailedTorrentsConcurrently` includes it in the returned list with an
empty file list and the bundle's own hash, name, size and date (the whole
`Torrent` record is carried over unchanged). -/
theorem detail_fetch_failure_recorded_as_empty
    (fetch : Torrent → Except String (List TorrentFile)) (torrents : List Torrent)
    (limit : Nat) (t : Torrent) (e : String)
    (hpos : 0 < limit) (hmem : t ∈ torrents) (hfail : fetch t = .error e) :
    ({ toTorrent := t, files := [] } : DetailedTorrent) ∈
      getDetailedTorrentsConcurrently fetch torrents limit := by
  rw [getDetailed_eq_filterMap fetch torrents limit hpos]
  exact List.mem_filterMap.mpr ⟨t, hmem, batchOutcome_error fetch t e hfail⟩

/-- Witness for C7: of three torrents fetched with limit 2, the second's
detail fetch rejects and it shows up with an empty file list. -/
theorem detail_fetch_failure_recorded_as_empty_witness :
    ({ toTorrent := tB, files := [] } : DetailedTorrent) ∈
      getDetailedTorrentsConcurrently detailMix [tA, tB, tC] 2 :=
  detail_fetch_failure_recorded_as_empty detailMix [tA, tB, tC] 2 tB "detail down"
    (by decide) (by decide) rfl

/-- C9 (implicit): every torrent returned by
`getDetailedTorrentsConcurrently` either has an empty file list (its detail
fetch failed) or contains at least one file that is not case-insensitively
`"available"`; and the returned length counts exactly the torrents that did
not fulfill with an all-available file list — so fully available torrents
are dropped even though their detail was fetched. -/
theorem detailed_list_only_broken_or_failed
    (fetch : Torrent → Except String (List TorrentFile)) (torrents : List Torrent)
    (limit : Nat) (hpos : 0 < limit) :
    (∀ dt ∈ getDetailedTorrentsConcurrently fetch torrents limit,
      dt.files = [] ∨ ∃ fl ∈ dt.files, ¬(strLower fl.status = "available")) ∧
    (getDetailedTorrentsConcurrently fetch torrents limit).length =
      torrents.countP (fun t => !(fetchedAllAvailable fetch t)) := by
  rw [getDetailed_eq_filterMap fetch torrents limit hpos]
  constructor
  · intro dt hdt
    obtain ⟨t, hmem, hout⟩ := List.mem_filterMap.mp hdt
    cases hf : fetch t with
    | error e =>
      rw [batchOutcome_error fetch t e hf] at hout
      obtain rfl := Option.some.inj hout
      left
      rfl
    | ok files =>
      rw [batchOutcome_ok fetch t files hf] at hout
      cases hall : files.all (fun fl => strLower fl.status == "available") with
      | true =>
        rw [if_pos hall] at hout
        exact Option.noConfusion hout
      | false =>
        rw [if_neg (by simp [hall])] at hout
        obtain rfl := Option.some.inj hout
        right
        have hnot : ¬ ∀ fl ∈ files, (strLower fl.status == "available") = true := by
          intro hcontra
          rw [List.all_eq_true.mpr hcontra] at hall
          exact Bool.noConfusion hall
        push_neg at hnot
        obtain ⟨fl, hfl, hne⟩ := hnot
        exact ⟨fl, hfl, by simpa using hne⟩
  · rw [length_filterMap_eq_countP (batchOutcome fetch) torrents]
    have hpt : ∀ t, (batchOutcome fetch t).isSome = !(fetchedAllAvailable fetch t) := by
      intro t
      cases hf : fetch t with
      | error e =>
        rw [batchOutcome_error fetch t e hf]
        unfold fetchedAllAvailable
        rw [hf]
        rfl
      | ok files =>
        rw [batchOutcome_ok fetch t files hf]
        unfold fetchedAllAvailable
        rw [hf]
        cases hall : files.all (fun fl => strLower fl.status == "available") with
        | true => simp [hall]
        | false => simp [hall]
    exact List.countP_congr (fun t _ => by rw [hpt t])

/-- Witness for C9: `tA` fulfills all-available (dropped), `tB` rejects,
`tC` fulfills with a broken file. -/
theorem detailed_list_only_broken_or_failed_witness :
    (∀ dt ∈ getDetailedTorrentsConcurrently detailMix [tA, tB, tC] 2,
      dt.files = [] ∨ ∃ fl ∈ dt.files, ¬(strLower fl.status = "available")) ∧
    (getDetailedTorrentsConcurrently detailMix [tA, tB, tC] 2).length =
      ([tA, tB, tC].countP (fun t => !(fetchedAllAvailable detailMix t))) :=
  detailed_list_only_broken_or_failed detailMix [tA, tB, tC] 2 (by decide)

/-- C8: if the instance is marked running, `executeInstance` performs zero
run invocations and leaves the running set unchanged; otherwise it performs
exactly one invocation, the running set in force at that invocation carries
the instance's mark, and — on success and on failure alike — the mark is
cleared afterwards, restoring the original set.  Hence two runs of one
instance never overlap. -/
theorem scheduler_exclusive_per_instance (runningJobs : List String)
    (jobKey : String) (runOutcome : Except String Unit) :
    executeInstance runningJobs jobKey runOutcome =
      (if runningJobs.contains jobKey then ⟨runningJobs, 0, []⟩
       else ⟨runningJobs, 1, [jobKey :: runningJobs]⟩) ∧
    ∀ s ∈ (executeInstance runningJobs jobKey runOutcome).invokeStates,
      s.contains jobKey = true := by
  by_cases h : jobKey ∈ runningJobs
  · constructor
    · simp [executeInstance, h]
    · intro s hs
      simp [executeInstance, h] at hs
  · constructor
    · cases runOutcome <;> simp [executeInstance, h]
    · intro s hs
      cases runOutcome <;> simp [executeInstance, h] at hs <;> simp [hs]

/-- C4 (amended): `runRepairForInstance` returns no value on success (its
return type is `Promise<void>`); given the torrent-list fetch succeeded, it
returns successfully exactly when the aggregate of the run's repair results
has `failed + error = 0` — in particular when there are zero targets (empty
torrent list or no broken files) — and throws exactly when
`failed + error > 0`. -/
theorem runInstance_throws_iff_failures (env : RunEnv) (inst : ZurgInstance)
    (ts : List Torrent) (hts : env.torrentList = .ok ts) :
    (runRepairForInstance env inst = .ok ()) ↔
      (summarize (runRepairResults env inst)).failed +
        (summarize (runRepairResults env inst)).error = 0 := by
  unfold runRepairForInstance runRepairResults
  rw [hts]
  by_cases hemp : ts.isEmpty
  · simp [hemp, summarize]
  · simp only [hemp, Bool.false_eq_true, if_false]
    by_cases hbr :
      (brokenTargets
        (getDetailedTorrentsConcurrently env.details ts inst.concurrencyLimit)).isEmpty
    · simp [hbr, summarize]
    · simp only [hbr, Bool.false_eq_true, if_false]
      split
      · rename_i hgt
        constructor
        · intro hcontra
          exact Except.noConfusion hcontra
        · intro hzero
          omega
      · rename_i hgt
        constructor
        · intro _
          omega
        · intro _
          rfl

/-- Witness for the amended C4: empty torrent list, zero targets, success. -/
theorem runInstance_throws_iff_failures_witness :
    (runRepairForInstance envNoTorrents instOne = .ok ()) ↔
      (summarize (runRepairResults envNoTorrents instOne)).failed +
        (summarize (runRepairResults envNoTorrents instOne)).error = 0 :=
  runInstance_throws_iff_failures envNoTorrents instOne [] rfl

/-- Counterexample to C4 as stated: `runRepairForInstance` does not return a
`RunSummary` to its caller — its success value is `Unit` (`Promise<void>`),
so no reading of the return value can reconstruct the spec-modelled
`runInstance`'s summary: two concrete runs that both succeed have spec
summaries {repaired 0} and {repaired 1}, while the code's return value is
the same `()` in both. -/
theorem runInstance_returns_no_summary_counterexample :
    ¬ ∃ f : Unit → RunSummary, ∀ (env : RunEnv) (inst : ZurgInstance),
        Except.map f (runRepairForInstance env inst) = runInstanceSpec env inst := by
  rintro ⟨f, hf⟩
  have h1 : (Except.ok (f ()) : Except String RunSummary) = .ok ⟨0, 0, 0⟩ :=
    hf envNoTorrents instOne
  have h2 : (Except.ok (f ()) : Except String RunSummary) = .ok ⟨1, 0, 0⟩ :=
    hf envOneRepaired instOne
  rw [h1] at h2
  have h3 : (⟨0, 0, 0⟩ : RunSummary) = ⟨1, 0, 0⟩ := Except.ok.inj h2
  cases h3

/-- Witness for C8 at a concrete running set, instance name and failing
run outcome. -/
theorem scheduler_exclusive_per_instance_witness :
    executeInstance ["other"] "main" (.error "run failed") =
      (if (["other"] : List String).contains "main" then ⟨["other"], 0, []⟩
       else ⟨["other"], 1, [["main", "other"]]⟩) ∧
    ∀ s ∈ (executeInstance ["other"] "main" (.error "run failed")).invokeStates,
      s.contains "main" = true :=
  scheduler_exclusive_per_instance ["other"] "main" (.error "run failed")
